import Mathlib

/-!
# Verification of the storefront OAuth gateway core

A shallow embedding of the worker's OAuth handshake, credential issuance,
API proxy and webhook pipeline (`src/lib/handlers.js`, `src/lib/hmac.js`,
`src/lib/validation.js`, `src/lib/utils.js`, `src/lib/shopify.js`), with the
cryptographic primitives (SHA-256, HMAC-SHA256, hex and base64 rendering)
implemented concretely so that verification decisions are computable.

JavaScript strings are modelled as Lean `String`s; the key-value stores
(`SHOPS`, `AUTH_STATES`, `API_KEYS`) as association lists; upstream HTTP
calls (token exchange, proxying) as oracle functions passed in explicitly,
with every call recorded in the handler's result so that "no upstream call
occurs" is a provable statement.
-/

namespace Gateway

/-! ## Bytes and 32-bit arithmetic (model of JS / WebCrypto integer ops) -/

/-- Truncate to a 32-bit word, as WebCrypto/SHA-256 arithmetic does. -/
def w32 (n : Nat) : Nat := n % 4294967296

/-- 32-bit addition. -/
def wadd (a b : Nat) : Nat := w32 (a + b)

/-- Right rotation of a 32-bit word. -/
def rotr (n x : Nat) : Nat := w32 ((x >>> n) ||| (x <<< (32 - n)))

/-- UTF-8 encoding of a single unicode scalar value (model of TextEncoder). -/
def utf8EncodeChar (n : Nat) : List Nat :=
  if n < 128 then [n]
  else if n < 2048 then [192 + n / 64, 128 + n % 64]
  else if n < 65536 then [224 + n / 4096, 128 + (n / 64) % 64, 128 + n % 64]
  else [240 + n / 262144, 128 + (n / 4096) % 64, 128 + (n / 64) % 64, 128 + n % 64]

/-- UTF-8 bytes of a string (model of `new TextEncoder().encode(s)`). -/
def utf8Bytes (s : String) : List Nat :=
  (s.data.map (fun c => utf8EncodeChar c.toNat)).flatten

/-! ## SHA-256 (FIPS 180-4), over lists of byte values -/

/-- The 64 SHA-256 round constants. -/
def shaK : List Nat :=
  [1116352408, 1899447441, 3049323471, 3921009573, 961987163, 1508970993,
   2453635748, 2870763221, 3624381080, 310598401, 607225278, 1426881987,
   1925078388, 2162078206, 2614888103, 3248222580, 3835390401, 4022224774,
   264347078, 604807628, 770255983, 1249150122, 1555081692, 1996064986,
   2554220882, 2821834349, 2952996808, 3210313671, 3336571891, 3584528711,
   113926993, 338241895, 666307205, 773529912, 1294757372, 1396182291,
   1695183700, 1986661051, 2177026350, 2456956037, 2730485921, 2820302411,
   3259730800, 3345764771, 3516065817, 3600352804, 4094571909, 275423344,
   430227734, 506948616, 659060556, 883997877, 958139571, 1322822218,
   1537002063, 1747873779, 1955562222, 2024104815, 2227730452, 2361852424,
   2428436474, 2756734187, 3204031479, 3329325298]

/-- The eight-word SHA-256 working state. -/
structure Sha8 where
  a : Nat
  b : Nat
  c : Nat
  d : Nat
  e : Nat
  f : Nat
  g : Nat
  h : Nat
deriving Repr, DecidableEq

/-- The SHA-256 initial hash value. -/
def shaH0 : Sha8 :=
  ⟨1779033703, 3144134277, 1013904242, 2773480762, 1359893119, 2600822924, 528734635, 1541459225⟩

/-- Pad a message to a multiple of 64 bytes: append 0x80, zeros, then the
bit length as a 64-bit big-endian integer. -/
def shaPad (msg : List Nat) : List Nat :=
  let l := msg.length
  let zeros := (119 - l % 64) % 64
  let bits := l * 8
  msg ++ [128] ++ List.replicate zeros 0 ++
    [(bits >>> 56) % 256, (bits >>> 48) % 256, (bits >>> 40) % 256, (bits >>> 32) % 256,
     (bits >>> 24) % 256, (bits >>> 16) % 256, (bits >>> 8) % 256, bits % 256]

/-- Split a byte list into 64-byte blocks; `fuel` bounds the number of
blocks (the list's length suffices). -/
def chunks64Go (fuel : Nat) (l : List Nat) : List (List Nat) :=
  match fuel, l with
  | 0, _ => []
  | _, [] => []
  | f + 1, b :: rest => ((b :: rest).take 64) :: chunks64Go f ((b :: rest).drop 64)

/-- Split a byte list into 64-byte blocks. -/
def chunks64 (l : List Nat) : List (List Nat) := chunks64Go l.length l

/-- Group four bytes into one big-endian 32-bit word. -/
def bytesToWords : List Nat → List Nat
  | b0 :: b1 :: b2 :: b3 :: rest => (b0 * 16777216 + b1 * 65536 + b2 * 256 + b3) :: bytesToWords rest
  | _ => []

/-- Small sigma-0 message-schedule function. -/
def ssig0 (x : Nat) : Nat := (rotr 7 x) ^^^ (rotr 18 x) ^^^ (x >>> 3)

/-- Small sigma-1 message-schedule function. -/
def ssig1 (x : Nat) : Nat := (rotr 17 x) ^^^ (rotr 19 x) ^^^ (x >>> 10)

/-- Extend the 16-word block to the 64-word message schedule; `fuel` counts
the remaining words to append (48 at the top call). -/
def extendW (ws : List Nat) : Nat → List Nat
  | 0 => ws
  | fuel + 1 =>
    let i := ws.length
    let nw := wadd (wadd (ssig1 (ws.getD (i - 2) 0)) (ws.getD (i - 7) 0))
                   (wadd (ssig0 (ws.getD (i - 15) 0)) (ws.getD (i - 16) 0))
    extendW (ws ++ [nw]) fuel

/-- One SHA-256 round; `wk` is the already-summed `W[i] + K[i]` input. -/
def shaRound (s : Sha8) (wk : Nat) : Sha8 :=
  let s1 := (rotr 6 s.e) ^^^ (rotr 11 s.e) ^^^ (rotr 25 s.e)
  let ch := (s.e &&& s.f) ^^^ ((4294967295 - s.e) &&& s.g)
  let t1 := wadd (wadd s.h s1) (wadd ch wk)
  let s0 := (rotr 2 s.a) ^^^ (rotr 13 s.a) ^^^ (rotr 22 s.a)
  let mj := (s.a &&& s.b) ^^^ (s.a &&& s.c) ^^^ (s.b &&& s.c)
  let t2 := wadd s0 mj
  ⟨wadd t1 t2, s.a, s.b, s.c, wadd s.d t1, s.e, s.f, s.g⟩

/-- Compress one 64-byte block into the running hash state. -/
def shaCompress (hv : Sha8) (block : List Nat) : Sha8 :=
  let ws := extendW (bytesToWords block) 48
  let wks := (ws.zip shaK).map (fun p => wadd p.1 p.2)
  let fin := wks.foldl shaRound hv
  ⟨wadd hv.a fin.a, wadd hv.b fin.b, wadd hv.c fin.c, wadd hv.d fin.d,
   wadd hv.e fin.e, wadd hv.f fin.f, wadd hv.g fin.g, wadd hv.h fin.h⟩

/-- Big-endian bytes of a 32-bit word. -/
def wordBytes (w : Nat) : List Nat :=
  [w / 16777216 % 256, w / 65536 % 256, w / 256 % 256, w % 256]

/-- SHA-256 digest of a byte list, as 32 bytes. -/
def sha256 (msg : List Nat) : List Nat :=
  let hh := (chunks64 (shaPad msg)).foldl shaCompress shaH0
  wordBytes hh.a ++ wordBytes hh.b ++ wordBytes hh.c ++ wordBytes hh.d ++
  wordBytes hh.e ++ wordBytes hh.f ++ wordBytes hh.g ++ wordBytes hh.h

/-! ## HMAC-SHA256 and digest rendering -/

/-- HMAC-SHA256 (RFC 2104) with byte-list key and message, as computed by
`crypto.subtle.sign('HMAC', ...)`. -/
def hmacSha256 (key msg : List Nat) : List Nat :=
  let k0 := if key.length > 64 then sha256 key else key
  let k := k0 ++ List.replicate (64 - k0.length) 0
  let ipad := k.map (fun b => b ^^^ 0x36)
  let opad := k.map (fun b => b ^^^ 0x5c)
  sha256 (opad ++ sha256 (ipad ++ msg))

/-- Lowercase-hex rendering of a byte list, two digits per byte
(model of `byte.toString(16).padStart(2, '0')` joined). -/
def toHex (bs : List Nat) : String :=
  String.mk ((bs.map (fun b => [Nat.digitChar (b / 16), Nat.digitChar (b % 16)])).flatten)

/-- The base64 alphabet. -/
def b64Alphabet : List Char :=
  "ABCDEFGHIJKLMNOPQRSTUVWXYZabcdefghijklmnopqrstuvwxyz0123456789+/".data

/-- Standard base64 with padding (model of `btoa` over raw digest bytes). -/
def toBase64 : List Nat → List Char
  | [] => []
  | [b0] =>
    [b64Alphabet.getD (b0 / 4) '?', b64Alphabet.getD (b0 % 4 * 16) '?', '=', '=']
  | [b0, b1] =>
    [b64Alphabet.getD (b0 / 4) '?', b64Alphabet.getD (b0 % 4 * 16 + b1 / 16) '?',
     b64Alphabet.getD (b1 % 16 * 4) '?', '=']
  | b0 :: b1 :: b2 :: rest =>
    b64Alphabet.getD (b0 / 4) '?' :: b64Alphabet.getD (b0 % 4 * 16 + b1 / 16) '?' ::
    b64Alphabet.getD (b1 % 16 * 4 + b2 / 64) '?' :: b64Alphabet.getD (b2 % 64) '?' ::
    toBase64 rest

/-- HMAC-SHA256 of string inputs rendered as lowercase hex, the OAuth
callback signature format. -/
def hmacSha256Hex (secret msg : String) : String :=
  toHex (hmacSha256 (utf8Bytes secret) (utf8Bytes msg))

/-- HMAC-SHA256 of string inputs rendered as base64, the webhook signature
format. -/
def hmacSha256Base64 (secret msg : String) : String :=
  String.mk (toBase64 (hmacSha256 (utf8Bytes secret) (utf8Bytes msg)))

end Gateway

namespace Gateway

/-! ## Constant-time comparison and signature verification (`src/lib/hmac.js`) -/

/-- `timingSafeEqual` from `src/lib/hmac.js`: reject on length mismatch,
otherwise OR-accumulate the XOR of every character pair and require the
accumulator to be zero. -/
def timingSafeEqual (a b : String) : Bool :=
  if a.length != b.length then false
  else ((a.data.zip b.data).foldl (fun r p => r ||| (p.1.toNat ^^^ p.2.toNat)) 0) == 0

/-- Three-way comparison of naturals. -/
def cmpNat (x y : Nat) : Ordering :=
  if x < y then .lt else if y < x then .gt else .eq

/-- Lexicographic comparison of `Nat` lists. -/
def cmpNatList : List Nat → List Nat → Ordering
  | [], [] => .eq
  | [], _ :: _ => .lt
  | _ :: _, [] => .gt
  | a :: as, b :: bs =>
    match cmpNat a b with
    | .eq => cmpNatList as bs
    | o => o

/-- Primary collation weight of an ASCII alphanumeric character: digits sort
below letters, letters case-insensitively in alphabetic order (an uppercase
letter gets the weight of its lowercase partner, `288 = 256 + 32`). -/
def localePrimary (c : Char) : Nat :=
  if 48 ≤ c.toNat ∧ c.toNat ≤ 57 then c.toNat
  else if 65 ≤ c.toNat ∧ c.toNat ≤ 90 then 288 + c.toNat
  else 256 + c.toNat

/-- Tertiary collation weight: lowercase before uppercase. -/
def localeTertiary (c : Char) : Nat :=
  if 65 ≤ c.toNat ∧ c.toNat ≤ 90 then 1 else 0

/-- Model of the JS builtin `String.prototype.localeCompare` under the
default (ICU root) locale, restricted to ASCII alphanumeric strings: a full
primary pass (case-insensitive, digits before letters) decides first, and a
tertiary pass (lowercase before uppercase) breaks primary ties. -/
def localeCompare (a b : String) : Int :=
  match cmpNatList (a.data.map localePrimary) (b.data.map localePrimary) with
  | .lt => -1
  | .gt => 1
  | .eq =>
    match cmpNatList (a.data.map localeTertiary) (b.data.map localeTertiary) with
    | .lt => -1
    | .gt => 1
    | .eq => 0

/-- Stable insertion into a sorted list: `x` goes before the first element
`y` with `le x y`. -/
def stableInsert (le : α → α → Bool) (x : α) : List α → List α
  | [] => [x]
  | y :: ys => if le x y then x :: y :: ys else y :: stableInsert le x ys

/-- Stable insertion sort, the model of the (stable) JS `Array.prototype.sort`
with a comparator: elements the comparator ties keep their original order. -/
def stableSort (le : α → α → Bool) : List α → List α
  | [] => []
  | x :: xs => stableInsert le x (stableSort le xs)

/-- Query parameters in order, as `URLSearchParams` holds them. -/
abbrev Params := List (String × String)

/-- `URLSearchParams.get`: the first value for the key, or null. -/
def paramsGet (ps : Params) (k : String) : Option String :=
  (List.find? (fun p => p.1 == k) ps).map (fun p => p.2)

/-- Field access after `Object.fromEntries` (or on a parsed JSON object):
the last entry for the key wins. -/
def entriesGet (ps : List (String × String)) (k : String) : Option String :=
  (List.find? (fun p => p.1 == k) ps.reverse).map (fun p => p.2)

/-- `verifyShopifyHmac` from `src/lib/hmac.js`: drop the `hmac` and
`signature` parameters, sort the rest with `localeCompare` on keys, join as
`key=value` with `&`, HMAC-SHA256 the result under the secret, render as
lowercase hex and compare in constant time against the supplied `hmac`. -/
def verifyShopifyHmac (params : Params) (secret : String) : Bool :=
  match paramsGet params "hmac" with
  | none => false
  | some providedHmac =>
    if providedHmac == "" then false
    else
      let paramsCopy := params.filter (fun p => p.1 != "hmac" && p.1 != "signature")
      let sorted := stableSort (fun p q => localeCompare p.1 q.1 ≤ 0) paramsCopy
      let sortedParams := String.intercalate "&" (sorted.map (fun p => p.1 ++ "=" ++ p.2))
      timingSafeEqual providedHmac (hmacSha256Hex secret sortedParams)

/-- Byte-wise lexicographic `≤` on strings (UTF-8 order; on the unicode
scalar values, which agrees with byte order). -/
def byteLexLe (a b : String) : Bool :=
  match cmpNatList (a.data.map Char.toNat) (b.data.map Char.toNat) with
  | .gt => false
  | _ => true

/-- The authorization-signature verifier exactly as the specification words
it: remove the signature parameters, sort the remaining parameters by key in
byte-wise lexicographic order, join as `key=value` pairs with `&`, compute
HMAC-SHA256 over the UTF-8 encoding, render as lowercase hex, and accept
exactly when the digest equals the supplied signature under constant-time
comparison. Stated for comparison against `verifyShopifyHmac`. -/
def specVerifyAuthorizationSignature (params : Params) (secret : String) : Bool :=
  match paramsGet params "hmac" with
  | none => false
  | some providedHmac =>
    let remaining := params.filter (fun p => p.1 != "hmac" && p.1 != "signature")
    let sorted := stableSort (fun p q => byteLexLe p.1 q.1) remaining
    let joined := String.intercalate "&" (sorted.map (fun p => p.1 ++ "=" ++ p.2))
    timingSafeEqual providedHmac (hmacSha256Hex secret joined)

/-- `verifyWebhookHmac` from `src/lib/hmac.js`: reject if any input is
missing or empty, else HMAC-SHA256 the raw body, render as base64, compare
in constant time against the header value. -/
def verifyWebhookHmac (body : String) (hmac : Option String) (secret : String) : Bool :=
  match hmac with
  | none => false
  | some h =>
    if h == "" || secret == "" || body == "" then false
    else timingSafeEqual h (hmacSha256Base64 secret body)

/-! ## Validation (`src/lib/validation.js`) -/

/-- ASCII letter or digit. -/
def isAlnumChar (c : Char) : Bool :=
  ('a' ≤ c && c ≤ 'z') || ('A' ≤ c && c ≤ 'Z') || ('0' ≤ c && c ≤ '9')

/-- The test of `/^[a-zA-Z0-9][a-zA-Z0-9-]*\.myshopify\.com$/`: a nonempty
alphanumeric-then-dashes label followed by the literal `.myshopify.com`. -/
def shopRegexTest (s : String) : Bool :=
  let cs := s.data
  let n := cs.length
  if n < 15 then false
  else
    (cs.drop (n - 14) == ".myshopify.com".data) &&
    (match cs.take (n - 14) with
     | [] => false
     | c :: rest => isAlnumChar c && rest.all (fun d => isAlnumChar d || d == '-'))

/-- `isValidShopDomain` from `src/lib/validation.js`: false for a missing or
empty value, else the regex test. -/
def isValidShopDomain (shop : Option String) : Bool :=
  match shop with
  | none => false
  | some s => if s == "" then false else shopRegexTest s

end Gateway

namespace Gateway

/-! ## JSON body parsing (model of the JS builtin `JSON.parse`) -/

/-- Parse one escape-free JSON string literal, returning it with the rest of
the input; `acc` accumulates characters in reverse. -/
def jsonStrGo : List Char → List Char → Option (String × List Char)
  | [], _ => none
  | c :: rest, acc =>
    if c == '"' then some (String.mk acc.reverse, rest)
    else if c == '\\' then none
    else jsonStrGo rest (c :: acc)

/-- Parse a JSON string literal starting at an opening quote. -/
def parseJsonString : List Char → Option (String × List Char)
  | '"' :: rest => jsonStrGo rest []
  | _ => none

/-- Parse `"k":"v"` pairs up to the closing brace; `fuel` bounds the number
of steps (the input length suffices). -/
def jsonPairsGo : Nat → List Char → List (String × String) → Option (List (String × String))
  | 0, _, _ => none
  | fuel + 1, cs, acc =>
    match parseJsonString cs with
    | none => none
    | some (k, rest) =>
      match rest with
      | ':' :: rest2 =>
        match parseJsonString rest2 with
        | none => none
        | some (v, rest3) =>
          match rest3 with
          | ',' :: rest4 => jsonPairsGo fuel rest4 (acc ++ [(k, v)])
          | ['}'] => some (acc ++ [(k, v)])
          | _ => none
      | _ => none

/-- Model of `JSON.parse` on the fragment the webhook bodies use: a flat
object with escape-free string keys and values and no extraneous
whitespace, yielding its entries in order. Outside this fragment the model
answers `none`, which the handlers treat as `JSON.parse` throwing. -/
def parseFlatJson (s : String) : Option (List (String × String)) :=
  match s.data with
  | ['{', '}'] => some []
  | '{' :: rest => jsonPairsGo rest.length rest []
  | _ => none

/-! ## Data model: records, stores, world -/

/-- A MerchantRecord, the value stored in `SHOPS` by `storeShopData`. -/
structure ShopRecord where
  accessToken : String
  scope : String
  installedAt : String
deriving Repr, DecidableEq

/-- A ClientCredential, the value stored in `API_KEYS` by
`handleExtensionAuth`. -/
structure ApiKeyRecord where
  shop : String
  accessToken : String
  createdAt : String
deriving Repr, DecidableEq

/-- `get` on a key-value namespace: first binding for the key, or null.
A TTL-expired entry is modelled as absent, per the store contract. -/
def kvGet (m : List (String × α)) (k : String) : Option α :=
  (List.find? (fun p => p.1 == k) m).map (fun p => p.2)

/-- `delete` on a key-value namespace. -/
def kvDelete (m : List (String × α)) (k : String) : List (String × α) :=
  m.filter (fun p => p.1 != k)

/-- `put` on a key-value namespace: overwrite any existing binding. -/
def kvPut (m : List (String × α)) (k : String) (v : α) : List (String × α) :=
  kvDelete m k ++ [(k, v)]

/-- The three durable namespaces bound to the worker. -/
structure World where
  authStates : List (String × String)
  shops : List (String × ShopRecord)
  apiKeys : List (String × ApiKeyRecord)
deriving Repr, DecidableEq

/-- The error taxonomy of `src/lib/errors.js`, plus the `SyntaxError` a
failed `JSON.parse` throws. -/
inductive WError where
  | authenticationError (msg : String) (status : Nat)
  | validationError (msg : String) (status : Nat)
  | configurationError (msg : String) (status : Nat)
  | syntaxError
deriving Repr, DecidableEq

/-- Error messages from `src/lib/constants.js`. -/
def EM_INVALID_SHOP : String := "Invalid shop domain"

/-- `ERROR_MESSAGES.INVALID_HMAC`. -/
def EM_INVALID_HMAC : String := "Invalid HMAC signature"

/-- `ERROR_MESSAGES.INVALID_STATE`. -/
def EM_INVALID_STATE : String := "Invalid state parameter"

/-- `ERROR_MESSAGES.INVALID_WEBHOOK`. -/
def EM_INVALID_WEBHOOK : String := "Invalid webhook signature"

/-- `ERROR_MESSAGES.APP_NOT_INSTALLED`. -/
def EM_APP_NOT_INSTALLED : String := "App not installed"

/-- `ERROR_MESSAGES.MISSING_AUTH`. -/
def EM_MISSING_AUTH : String := "Missing or invalid authorization"

/-- `ERROR_MESSAGES.INVALID_API_KEY`. -/
def EM_INVALID_API_KEY : String := "Invalid API key"

/-- `ERROR_MESSAGES.MISSING_ENDPOINT`. -/
def EM_MISSING_ENDPOINT : String := "Missing endpoint parameter"

/-- `ERROR_MESSAGES.MISSING_OAUTH_PARAMS`. -/
def EM_MISSING_OAUTH_PARAMS : String := "Missing required OAuth parameters"

/-- `ERROR_MESSAGES.FAILED_TOKEN_EXCHANGE`. -/
def EM_FAILED_TOKEN_EXCHANGE : String := "Failed to exchange code for token"

/-- `ERROR_MESSAGES.FAILED_PROXY`. -/
def EM_FAILED_PROXY : String := "Failed to proxy request"

/-- A JS value is falsy as a string field when it is absent or empty. -/
def falsy (o : Option String) : Bool := o.isNone || o == some ""

end Gateway

namespace Gateway

/-! ## Handlers (`src/lib/handlers.js`)

Upstream HTTP is an oracle argument; every upstream call a handler makes is
recorded in its result, and reads of each store are counted, so that
"no upstream call / no store access occurred" are provable statements. -/

/-- Decidable equality for `Except`, needed to evaluate handler results on
concrete inputs. -/
instance [DecidableEq e] [DecidableEq a] : DecidableEq (Except e a) := fun x y =>
  match x, y with
  | .ok u, .ok v =>
    if h : u = v then .isTrue (by rw [h]) else .isFalse (by intro he; cases he; exact h rfl)
  | .error u, .error v =>
    if h : u = v then .isTrue (by rw [h]) else .isFalse (by intro he; cases he; exact h rfl)
  | .ok _, .error _ => .isFalse (by intro he; cases he)
  | .error _, .ok _ => .isFalse (by intro he; cases he)

/-- The `{access_token, scope}` payload of a successful token exchange. -/
structure TokenData where
  access_token : String
  scope : String
deriving Repr, DecidableEq

/-- Everything `handleOAuthCallback` produces: the thrown error or redirect
URL, the stores afterwards, the number of `AUTH_STATES.get` lookups, the
token-exchange POSTs made (shop, code) and the shops webhooks were
registered for. -/
structure CallbackResult where
  outcome : Except WError String
  world : World
  stateGets : Nat
  tokenCalls : List (String × String)
  webhookRegs : List String
deriving Repr, DecidableEq

/-- `handleOAuthCallback`: require the four parameters, check the stored
state against the supplied shop, delete the state, verify the callback
signature, exchange the code (via the `exchangeToken` oracle; `none` is a
non-ok upstream response), persist the MerchantRecord, register webhooks,
redirect. `now` stands for `new Date().toISOString()` and `appHandle` for
`env.SHOPIFY_APP_HANDLE`. -/
def handleOAuthCallback (params : Params) (secret : String)
    (exchangeToken : String → String → Option TokenData)
    (now appHandle : String) (w : World) : CallbackResult :=
  let code := entriesGet params "code"
  let shop := entriesGet params "shop"
  let state := entriesGet params "state"
  let hmac := entriesGet params "hmac"
  if falsy code || falsy shop || falsy state || falsy hmac then
    ⟨.error (.validationError EM_MISSING_OAUTH_PARAMS 400), w, 0, [], []⟩
  else
    let shopS := shop.getD ""
    let stateS := state.getD ""
    let savedShop := kvGet w.authStates stateS
    if savedShop != some shopS then
      ⟨.error (.authenticationError EM_INVALID_STATE 403), w, 1, [], []⟩
    else
      let w1 := { w with authStates := kvDelete w.authStates stateS }
      if !(verifyShopifyHmac params secret) then
        ⟨.error (.authenticationError EM_INVALID_HMAC 403), w1, 1, [], []⟩
      else
        let codeS := code.getD ""
        match exchangeToken shopS codeS with
        | none =>
          ⟨.error (.authenticationError EM_FAILED_TOKEN_EXCHANGE 401), w1, 1, [(shopS, codeS)], []⟩
        | some td =>
          let w2 := { w1 with shops := kvPut w1.shops shopS ⟨td.access_token, td.scope, now⟩ }
          ⟨.ok ("https://" ++ shopS ++ "/admin/apps/" ++ appHandle), w2, 1, [(shopS, codeS)], [shopS]⟩

/-- The three responses `handleExtensionAuth` can produce. -/
inductive ExtAuthResponse where
  | invalidShop
  | notInstalled (installUrl : String)
  | success (apiKey : String) (shop : String)
deriving Repr, DecidableEq

/-- Result of `handleExtensionAuth`: the JSON response, the stores
afterwards, and the number of `SHOPS.get` lookups. -/
structure ExtAuthResult where
  response : ExtAuthResponse
  world : World
  shopsGets : Nat
deriving Repr, DecidableEq

/-- `handleExtensionAuth` (credential issuance): validate the domain from
the request body, require a MerchantRecord, then mint and persist a fresh
API key bound to that record's token. `freshKey` stands for
`crypto.randomUUID()`. -/
def handleExtensionAuth (bodyShop : Option String) (freshKey now appHandle : String)
    (w : World) : ExtAuthResult :=
  if !(isValidShopDomain bodyShop) then
    ⟨.invalidShop, w, 0⟩
  else
    let shopS := bodyShop.getD ""
    match kvGet w.shops shopS with
    | none => ⟨.notInstalled ("https://apps.shopify.com/" ++ appHandle), w, 1⟩
    | some shopData =>
      let w1 := { w with apiKeys := kvPut w.apiKeys ("key:" ++ freshKey) ⟨shopS, shopData.accessToken, now⟩ }
      ⟨.success freshKey shopS, w1, 1⟩

/-- `extractApiKey` from `src/lib/utils.js`: a `Bearer `-prefixed
Authorization header, with the prefix stripped. -/
def extractApiKey (authHeader : Option String) : Option String :=
  match authHeader with
  | none => none
  | some h =>
    if h == "" then none
    else if h.data.take 7 == "Bearer ".data then some (String.mk (h.data.drop 7))
    else none

/-- One call forwarded upstream by the proxy. -/
structure UpstreamCall where
  shop : String
  endpoint : String
  method : String
  body : Option String
  accessToken : String
deriving Repr, DecidableEq

/-- The responses `handleAPIProxy` can produce. -/
inductive ProxyResponse where
  | missingAuth
  | invalidApiKey
  | missingEndpoint
  | upstream (status : Nat) (body : String)
  | proxyFailed
deriving Repr, DecidableEq

/-- Result of `handleAPIProxy`: the JSON response, the stores afterwards,
the upstream calls made in order, and the number of `SHOPS.get` lookups
(the proxy makes none: it resolves the key purely against `API_KEYS`). -/
structure ProxyResult where
  response : ProxyResponse
  world : World
  upstreamCalls : List UpstreamCall
  shopsGets : Nat
deriving Repr, DecidableEq

/-- `handleAPIProxy`: extract the bearer key, resolve it in `API_KEYS`,
require an endpoint, then forward exactly one call upstream with the stored
token snapshot (the `upstream` oracle; `none` is a transport failure, which
is wrapped as a 500 "failed proxy" response). -/
def handleAPIProxy (authHeader : Option String) (endpoint method data : Option String)
    (upstream : UpstreamCall → Option (Nat × String)) (w : World) : ProxyResult :=
  match extractApiKey authHeader with
  | none => ⟨.missingAuth, w, [], 0⟩
  | some apiKey =>
    match kvGet w.apiKeys ("key:" ++ apiKey) with
    | none => ⟨.invalidApiKey, w, [], 0⟩
    | some keyData =>
      let methodS := method.getD "GET"
      if falsy endpoint then ⟨.missingEndpoint, w, [], 0⟩
      else
        let call : UpstreamCall :=
          ⟨keyData.shop, endpoint.getD "", methodS,
           if methodS != "GET" && !(falsy data) then data else none,
           keyData.accessToken⟩
        match upstream call with
        | some r => ⟨.upstream r.1 r.2, w, [call], 0⟩
        | none => ⟨.proxyFailed, w, [call], 0⟩

/-- `handleShopRedact`: delete the MerchantRecord named by the webhook
body's `shop_domain` field, when present and non-empty. -/
def handleShopRedact (shopDomain : Option String) (w : World) : World :=
  match shopDomain with
  | some s => if s != "" then { w with shops := kvDelete w.shops s } else w
  | none => w

/-- Result of `handleWebhook`: the thrown error or the empty 200
acknowledgment, and the stores afterwards. -/
structure WebhookResult where
  outcome : Except WError Unit
  world : World
deriving Repr, DecidableEq

/-- `handleWebhook`: verify the signature header over the raw body before
any parsing; on failure throw `AuthenticationError` with no dispatch. On
success parse the body and dispatch by topic: `shop/redact` deletes the
MerchantRecord, the customer topics only log. -/
def handleWebhook (topic body : String) (hmacHdr : Option String) (secret : String)
    (w : World) : WebhookResult :=
  if !(verifyWebhookHmac body hmacHdr secret) then
    ⟨.error (.authenticationError EM_INVALID_WEBHOOK 401), w⟩
  else
    match parseFlatJson body with
    | none => ⟨.error .syntaxError, w⟩
    | some kvs =>
      if topic == "shop/redact" then ⟨.ok (), handleShopRedact (entriesGet kvs "shop_domain") w⟩
      else ⟨.ok (), w⟩

/-- The responses `handleRootPath` can produce. -/
inductive RootResponse where
  | landing
  | installRedirect (shop : String)
  | accessDenied (shop : String)
  | embeddedApp (shop : String) (host : Option String)
  | adminRedirect (shop : String)
deriving Repr, DecidableEq

/-- Result of `handleRootPath`: the thrown error or page, and the number of
`SHOPS.get` lookups (`checkInstallation`). The handler never writes. -/
structure RootResult where
  outcome : Except WError RootResponse
  shopsGets : Nat
deriving Repr, DecidableEq

/-- `handleRootPath`: landing page without a shop parameter; otherwise
validate the domain before the installation check, then branch on
installation and embedding. Host validation is fail-open and does not
affect the outcome. -/
def handleRootPath (shop embedded host : Option String) (w : World) : RootResult :=
  if falsy shop then ⟨.ok .landing, 0⟩
  else
    let s := shop.getD ""
    if !(isValidShopDomain shop) then ⟨.error (.validationError EM_INVALID_SHOP 400), 0⟩
    else if (kvGet w.shops s).isNone then ⟨.ok (.installRedirect s), 1⟩
    else if embedded == some "1" then
      if falsy host then ⟨.ok (.accessDenied s), 1⟩
      else ⟨.ok (.embeddedApp s host), 1⟩
    else ⟨.ok (.adminRedirect s), 1⟩

/-- `buildShopifyAuthUrl` from `src/lib/utils.js` (model: the
`URLSearchParams` percent-encoding of the component values is omitted). -/
def buildShopifyAuthUrl (shop clientId scope redirectUri state : String) : String :=
  "https://" ++ shop ++ "/admin/oauth/authorize?client_id=" ++ clientId ++
  "&scope=" ++ scope ++ "&redirect_uri=" ++ redirectUri ++ "&state=" ++ state

/-- Result of `handleOAuth` (initiation): the thrown error or redirect URL,
the stores afterwards, and the number of `AUTH_STATES.put` writes. -/
structure OAuthInitResult where
  outcome : Except WError String
  world : World
  statePuts : Nat
deriving Repr, DecidableEq

/-- `handleOAuth` (initiation): validate the shop domain, persist the fresh
state token mapped to the shop, redirect to the authorization endpoint.
`freshState` stands for `crypto.randomUUID()`. -/
def handleOAuth (shop : Option String) (freshState clientId scopes redirectUri : String)
    (w : World) : OAuthInitResult :=
  if !(isValidShopDomain shop) then
    ⟨.error (.validationError EM_INVALID_SHOP 400), w, 0⟩
  else
    let s := shop.getD ""
    let w1 := { w with authStates := kvPut w.authStates freshState s }
    ⟨.ok (buildShopifyAuthUrl s clientId scopes redirectUri freshState), w1, 1⟩

end Gateway

namespace Gateway

/-! ## Association-list store lemmas -/

/-- `find?` for a key never succeeds on a list the key was deleted from. -/
theorem find?_kvDelete_self (m : List (String × α)) (k : String) :
    List.find? (fun p => p.1 == k) (kvDelete m k) = none := by
  induction m with
  | nil => rfl
  | cons p m ih =>
    by_cases h : p.1 = k
    · simp [kvDelete, h, ih]
    · simp [kvDelete, List.filter_cons, bne, h, List.find?_cons, ih]

/-- Deleting one key leaves other keys' lookups unchanged. -/
theorem kvGet_delete_ne (m : List (String × α)) (k k' : String) (h : k' ≠ k) :
    kvGet (kvDelete m k) k' = kvGet m k' := by
  have hk : (k == k') = false := by
    simp only [beq_eq_false_iff_ne, ne_eq]
    exact fun he => h he.symm
  induction m with
  | nil => rfl
  | cons p m ih =>
    by_cases hp : p.1 = k
    · simpa [kvDelete, List.filter_cons, bne, hp, kvGet, List.find?_cons, hk] using ih
    · by_cases hp' : p.1 = k'
      · simp [kvDelete, List.filter_cons, bne, hp, kvGet, List.find?_cons, hp',
              show ¬k' = k from h]
      · simpa [kvDelete, List.filter_cons, bne, hp, kvGet, List.find?_cons, hp'] using ih

/-- Looking up a deleted key yields null. -/
theorem kvGet_delete_self (m : List (String × α)) (k : String) :
    kvGet (kvDelete m k) k = none := by
  simp [kvGet, find?_kvDelete_self]

/-- Looking up the key just written yields the written value. -/
theorem kvGet_put_self (m : List (String × α)) (k : String) (v : α) :
    kvGet (kvPut m k v) k = some v := by
  simp [kvGet, kvPut, List.find?_append, find?_kvDelete_self, List.find?_cons]

/-- Writing one key leaves other keys' lookups unchanged. -/
theorem kvGet_put_ne (m : List (String × α)) (k k' : String) (v : α) (h : k' ≠ k) :
    kvGet (kvPut m k v) k' = kvGet m k' := by
  have hk : (k == k') = false := by
    simp only [beq_eq_false_iff_ne, ne_eq]
    exact fun he => h he.symm
  rw [show kvGet (kvPut m k v) k' =
        Option.map (fun p => p.2)
          ((List.find? (fun p => p.1 == k') (kvDelete m k)).or
            (List.find? (fun p => p.1 == k') [(k, v)])) by
      simp [kvGet, kvPut, List.find?_append]]
  simp only [List.find?_cons, hk, List.find?_nil, Option.or_none]
  have := kvGet_delete_ne m k k' h
  simpa [kvGet] using this

/-- A successful lookup comes from an actual binding in the list. -/
theorem kvGet_mem (m : List (String × α)) (k : String) (v : α)
    (h : kvGet m k = some v) : (k, v) ∈ m := by
  induction m with
  | nil => simp [kvGet] at h
  | cons p m ih =>
    by_cases hp : p.1 = k
    · simp [kvGet, List.find?_cons, hp] at h
      have hpv : p = (k, v) := by
        cases p
        simp_all
      exact hpv ▸ List.mem_cons_self _ _
    · simp only [kvGet, List.find?_cons] at h
      rw [show ((p.1 == k) = false) by simpa using hp] at h
      exact List.mem_cons_of_mem _ (ih (by simpa [kvGet] using h))

/-! ## Constant-time equality (claim C9 support) -/

/-- A bitwise OR of naturals is zero exactly when both are. -/
theorem lor_zero_iff (x y : Nat) : x ||| y = 0 ↔ x = 0 ∧ y = 0 := by
  constructor
  · intro h
    refine ⟨Nat.eq_of_testBit_eq fun i => ?_, Nat.eq_of_testBit_eq fun i => ?_⟩ <;>
    · have hb := congrArg (fun n => Nat.testBit n i) h
      simp [Nat.testBit_or] at hb
      simp [hb]
  · rintro ⟨rfl, rfl⟩
    rfl

/-- Characters with the same scalar value are the same character. -/
theorem charToNat_inj {c d : Char} (h : c.toNat = d.toNat) : c = d :=
  Char.ext (UInt32.ext h)

/-- The OR-accumulating fold of the XORed character pairs is zero exactly
when the accumulator starts at zero and every pair matches. -/
theorem foldl_lor_zero (l : List (Char × Char)) (acc : Nat) :
    (l.foldl (fun r p => r ||| (p.1.toNat ^^^ p.2.toNat)) acc = 0) ↔
      (acc = 0 ∧ ∀ p ∈ l, p.1 = p.2) := by
  induction l generalizing acc with
  | nil => simp
  | cons p l ih =>
    simp only [List.foldl_cons, ih, lor_zero_iff, Nat.xor_eq_zero, List.mem_cons]
    constructor
    · rintro ⟨⟨h0, hx⟩, hrest⟩
      exact ⟨h0, fun q hq => hq.elim (fun he => he ▸ charToNat_inj hx) (hrest q)⟩
    · rintro ⟨h0, hall⟩
      exact ⟨⟨h0, congrArg Char.toNat (hall p (Or.inl rfl))⟩,
             fun q hq => hall q (Or.inr hq)⟩

/-- Equal-length lists with pointwise-equal zips are equal. -/
theorem eq_of_zip_eq : ∀ (xs ys : List Char), xs.length = ys.length →
    (∀ p ∈ xs.zip ys, p.1 = p.2) → xs = ys
  | [], [], _, _ => rfl
  | [], _ :: _, hl, _ => by simp at hl
  | _ :: _, [], hl, _ => by simp at hl
  | x :: xs, y :: ys, hl, hp => by
    have hxy := hp (x, y) (by simp)
    have ht := eq_of_zip_eq xs ys (by simpa using hl)
      (fun p hp2 => hp p (by simp [hp2]))
    simp_all

/-- Every pair in a list zipped with itself has equal components. -/
theorem zip_self_pairs : ∀ (l : List Char), ∀ p ∈ l.zip l, p.1 = p.2
  | [], _, h => by simp at h
  | x :: l, p, h => by
    rcases List.mem_cons.1 (by simpa using h) with h1 | h2
    · simp [h1]
    · exact zip_self_pairs l p h2

/-- C9. `timingSafeEqual` accepts exactly the identical strings: a length
mismatch is rejected outright, and with equal lengths the XOR-accumulation
over every character pair is zero exactly for identical strings. -/
theorem timingSafeEqual_true_iff_eq (a b : String) :
    timingSafeEqual a b = true ↔ a = b := by
  unfold timingSafeEqual
  by_cases hl : a.length = b.length
  · have hdl : a.data.length = b.data.length := hl
    simp only [hl, bne_self_eq_false, Bool.false_eq_true, if_false, beq_iff_eq,
               foldl_lor_zero]
    constructor
    · rintro ⟨-, hall⟩
      exact String.ext (eq_of_zip_eq a.data b.data hdl hall)
    · rintro rfl
      exact ⟨trivial, zip_self_pairs a.data⟩
  · have hne : a ≠ b := fun he => hl (he ▸ rfl)
    simp only [bne_iff_ne, ne_eq, hl, not_false_eq_true, if_true]
    simp [hne]

end Gateway

namespace Gateway

/-! ## Webhook fail-closed (claim C4) -/

/-- C4. When the webhook signature header does not verify against the raw
body under the shared secret, `handleWebhook` throws `AuthenticationError`
and performs no dispatch: every store, in particular the MerchantRecord
store, is left exactly as it was. -/
theorem handleWebhook_authFail_noDispatch (topic body : String)
    (hmacHdr : Option String) (secret : String) (w : World)
    (h : verifyWebhookHmac body hmacHdr secret = false) :
    handleWebhook topic body hmacHdr secret w =
      ⟨.error (.authenticationError EM_INVALID_WEBHOOK 401), w⟩ := by
  unfold handleWebhook
  simp [h]

/-- Witness for C4 at a concrete input: a missing signature header never
verifies, and the webhook leaves a populated world untouched. -/
theorem handleWebhook_authFail_noDispatch_witness :
    verifyWebhookHmac "\x7b\"shop_domain\":\"a.myshopify.com\"\x7d" none "whsec" = false ∧
      handleWebhook "shop/redact" "\x7b\"shop_domain\":\"a.myshopify.com\"\x7d" none "whsec"
          ⟨[], [("a.myshopify.com", ⟨"tok", "read_orders", "T"⟩)], []⟩ =
        ⟨.error (.authenticationError EM_INVALID_WEBHOOK 401),
         ⟨[], [("a.myshopify.com", ⟨"tok", "read_orders", "T"⟩)], []⟩⟩ :=
  ⟨by decide,
   handleWebhook_authFail_noDispatch "shop/redact" "\x7b\"shop_domain\":\"a.myshopify.com\"\x7d"
     none "whsec" ⟨[], [("a.myshopify.com", ⟨"tok", "read_orders", "T"⟩)], []⟩ (by decide)⟩

/-! ## Proxy with unknown key (claim C5) -/

/-- C5. When the request carries no extractable client key, or the key is
absent from the credential store (a TTL-expired key being modelled as
absent), `handleAPIProxy` answers with an authentication error (401) and
makes zero upstream calls, leaving every store unchanged. -/
theorem handleAPIProxy_unknownKey_noUpstream (authHeader : Option String)
    (endpoint method data : Option String)
    (upstream : UpstreamCall → Option (Nat × String)) (w : World)
    (h : extractApiKey authHeader = none ∨
         ∃ k, extractApiKey authHeader = some k ∧ kvGet w.apiKeys ("key:" ++ k) = none) :
    ((handleAPIProxy authHeader endpoint method data upstream w).response = .missingAuth ∨
     (handleAPIProxy authHeader endpoint method data upstream w).response = .invalidApiKey) ∧
    (handleAPIProxy authHeader endpoint method data upstream w).upstreamCalls = [] ∧
    (handleAPIProxy authHeader endpoint method data upstream w).world = w := by
  rcases h with h | ⟨k, hk, hkv⟩
  · unfold handleAPIProxy
    simp [h]
  · unfold handleAPIProxy
    simp [hk, hkv]

/-- Witness for C5 at a concrete input: a syntactically valid bearer key
that is in no store is rejected with zero upstream calls. -/
theorem handleAPIProxy_unknownKey_noUpstream_witness :
    ((handleAPIProxy (some "Bearer nope") (some "/orders.json") none none
        (fun _ => some (200, "{}")) ⟨[], [], []⟩).response = .missingAuth ∨
     (handleAPIProxy (some "Bearer nope") (some "/orders.json") none none
        (fun _ => some (200, "{}")) ⟨[], [], []⟩).response = .invalidApiKey) ∧
    (handleAPIProxy (some "Bearer nope") (some "/orders.json") none none
        (fun _ => some (200, "{}")) ⟨[], [], []⟩).upstreamCalls = [] ∧
    (handleAPIProxy (some "Bearer nope") (some "/orders.json") none none
        (fun _ => some (200, "{}")) ⟨[], [], []⟩).world = ⟨[], [], []⟩ :=
  handleAPIProxy_unknownKey_noUpstream (some "Bearer nope") (some "/orders.json")
    none none (fun _ => some (200, "{}")) ⟨[], [], []⟩
    (Or.inr ⟨"nope", by decide, by decide⟩)

/-! ## Callback state check fail-closed (claim C8) -/

/-- C8. With all four callback parameters present, an absent state entry and
a state entry stored for a different domain produce the very same result:
`AuthenticationError` (invalid state, 403) after exactly one state-store
lookup, with no token-exchange call, no webhook registration, and every
store unchanged. -/
theorem handleOAuthCallback_invalidState (params : Params) (secret : String)
    (exchangeToken : String → String → Option TokenData) (now appHandle : String)
    (w : World)
    (hcode : falsy (entriesGet params "code") = false)
    (hshop : falsy (entriesGet params "shop") = false)
    (hstate : falsy (entriesGet params "state") = false)
    (hhmac : falsy (entriesGet params "hmac") = false)
    (h : kvGet w.authStates ((entriesGet params "state").getD "") = none ∨
         ∃ s, kvGet w.authStates ((entriesGet params "state").getD "") = some s ∧
           s ≠ (entriesGet params "shop").getD "") :
    handleOAuthCallback params secret exchangeToken now appHandle w =
      ⟨.error (.authenticationError EM_INVALID_STATE 403), w, 1, [], []⟩ := by
  unfold handleOAuthCallback
  simp only [hcode, hshop, hstate, hhmac, Bool.or_self, Bool.false_or,
             Bool.false_eq_true, if_false]
  rcases h with h | ⟨s, hs, hne⟩
  · simp [h]
  · simp [hs, hne]

/-- Witness for C8 at concrete inputs: the absent-entry case and the
mismatched-domain case produce identical results. -/
theorem handleOAuthCallback_invalidState_witness :
    handleOAuthCallback
        [("code", "c1"), ("hmac", "x"), ("shop", "a.myshopify.com"), ("state", "st")]
        "shh" (fun _ _ => some ⟨"tok", "read_orders"⟩) "T" "handle" ⟨[], [], []⟩ =
      ⟨.error (.authenticationError EM_INVALID_STATE 403), ⟨[], [], []⟩, 1, [], []⟩ ∧
    handleOAuthCallback
        [("code", "c1"), ("hmac", "x"), ("shop", "a.myshopify.com"), ("state", "st")]
        "shh" (fun _ _ => some ⟨"tok", "read_orders"⟩) "T" "handle"
        ⟨[("st", "b.myshopify.com")], [], []⟩ =
      ⟨.error (.authenticationError EM_INVALID_STATE 403),
       ⟨[("st", "b.myshopify.com")], [], []⟩, 1, [], []⟩ :=
  ⟨handleOAuthCallback_invalidState _ "shh" (fun _ _ => some ⟨"tok", "read_orders"⟩)
     "T" "handle" ⟨[], [], []⟩ (by decide) (by decide) (by decide) (by decide)
     (Or.inl (by decide)),
   handleOAuthCallback_invalidState _ "shh" (fun _ _ => some ⟨"tok", "read_orders"⟩)
     "T" "handle" ⟨[("st", "b.myshopify.com")], [], []⟩ (by decide) (by decide)
     (by decide) (by decide) (Or.inr ⟨"b.myshopify.com", by decide, by decide⟩)⟩

end Gateway

namespace Gateway

/-! ## Credential issuance requires a MerchantRecord (claim C6) -/

/-- C6. For a valid domain with no MerchantRecord, `handleExtensionAuth`
returns the structured "not installed" response (never a thrown error) and
persists nothing; and in every case, a ClientCredential that appears in the
credential store where there was none before was minted for the requested
domain while a MerchantRecord for it existed, with that record's token. -/
theorem handleExtensionAuth_requires_record (bodyShop : Option String)
    (freshKey now appHandle : String) (w : World)
    (hvalid : isValidShopDomain bodyShop = true) :
    (kvGet w.shops (bodyShop.getD "") = none →
       handleExtensionAuth bodyShop freshKey now appHandle w =
         ⟨.notInstalled ("https://apps.shopify.com/" ++ appHandle), w, 1⟩) ∧
    (∀ k rec, kvGet (handleExtensionAuth bodyShop freshKey now appHandle w).world.apiKeys k
        = some rec → kvGet w.apiKeys k = none →
      rec.shop = bodyShop.getD "" ∧
        ∃ r, kvGet w.shops rec.shop = some r ∧ rec.accessToken = r.accessToken) := by
  constructor
  · intro habs
    unfold handleExtensionAuth
    simp [hvalid, habs]
  · intro k rec hnew hold
    unfold handleExtensionAuth at hnew
    simp only [hvalid, Bool.not_true, Bool.false_eq_true, if_false] at hnew
    rcases hrec : kvGet w.shops (bodyShop.getD "") with _ | shopData
    · rw [hrec] at hnew
      simp only at hnew
      rw [hnew] at hold
      simp at hold
    · rw [hrec] at hnew
      simp only at hnew
      by_cases hk : k = "key:" ++ freshKey
      · rw [hk, kvGet_put_self] at hnew
        cases hnew
        exact ⟨rfl, shopData, hrec, rfl⟩
      · rw [kvGet_put_ne _ _ _ _ hk] at hnew
        rw [hnew] at hold
        simp at hold

/-- Witness for C6 at a concrete input: valid domain, empty MerchantRecord
store, "not installed" response, credential store untouched. -/
theorem handleExtensionAuth_requires_record_witness :
    handleExtensionAuth (some "a.myshopify.com") "k1" "T" "handle"
        ⟨[], [], [("key:old", ⟨"b.myshopify.com", "tok0", "T0"⟩)]⟩ =
      ⟨.notInstalled "https://apps.shopify.com/handle",
       ⟨[], [], [("key:old", ⟨"b.myshopify.com", "tok0", "T0"⟩)]⟩, 1⟩ :=
  (handleExtensionAuth_requires_record (some "a.myshopify.com") "k1" "T" "handle"
      ⟨[], [], [("key:old", ⟨"b.myshopify.com", "tok0", "T0"⟩)]⟩ (by decide)).1
    (by decide)

end Gateway

namespace Gateway

/-! ## Shop redaction (claims C7, C10) -/

/-- C7. A shop-redaction webhook whose signature verifies and whose parsed
body names a shop domain acknowledges with 200, leaves no MerchantRecord
for that domain, and a subsequent credential-issuance call for the domain
answers "not installed". -/
theorem handleWebhook_shopRedact_deletes (body : String) (hmacHdr : Option String)
    (secret : String) (kvs : List (String × String))
    (shop freshKey now appHandle : String) (w : World)
    (hver : verifyWebhookHmac body hmacHdr secret = true)
    (hparse : parseFlatJson body = some kvs)
    (hdom : entriesGet kvs "shop_domain" = some shop)
    (hne : shop ≠ "")
    (hvalid : isValidShopDomain (some shop) = true) :
    (handleWebhook "shop/redact" body hmacHdr secret w).outcome = .ok () ∧
    kvGet (handleWebhook "shop/redact" body hmacHdr secret w).world.shops shop = none ∧
    (handleExtensionAuth (some shop) freshKey now appHandle
        (handleWebhook "shop/redact" body hmacHdr secret w).world).response =
      .notInstalled ("https://apps.shopify.com/" ++ appHandle) := by
  have hw2 : handleWebhook "shop/redact" body hmacHdr secret w =
      ⟨.ok (), { w with shops := kvDelete w.shops shop }⟩ := by
    unfold handleWebhook handleShopRedact
    simp [hver, hparse, hdom, hne]
  rw [hw2]
  refine ⟨rfl, kvGet_delete_self w.shops shop, ?_⟩
  unfold handleExtensionAuth
  simp [hvalid, kvGet_delete_self]

set_option maxRecDepth 40000 in
/-- Witness for C7 at a concrete input: a correctly signed redaction body
removes the installed shop's record; issuance then reports not installed. -/
theorem handleWebhook_shopRedact_deletes_witness :
    (handleWebhook "shop/redact" "\x7b\"shop_domain\":\"shop-a.myshopify.com\"\x7d"
        (some (hmacSha256Base64 "whsec" "\x7b\"shop_domain\":\"shop-a.myshopify.com\"\x7d"))
        "whsec" ⟨[], [("shop-a.myshopify.com", ⟨"tok", "read_orders", "T"⟩)], []⟩).outcome
      = .ok () ∧
    kvGet (handleWebhook "shop/redact" "\x7b\"shop_domain\":\"shop-a.myshopify.com\"\x7d"
        (some (hmacSha256Base64 "whsec" "\x7b\"shop_domain\":\"shop-a.myshopify.com\"\x7d"))
        "whsec" ⟨[], [("shop-a.myshopify.com", ⟨"tok", "read_orders", "T"⟩)], []⟩).world.shops
        "shop-a.myshopify.com" = none ∧
    (handleExtensionAuth (some "shop-a.myshopify.com") "k1" "T1" "handle"
        (handleWebhook "shop/redact" "\x7b\"shop_domain\":\"shop-a.myshopify.com\"\x7d"
          (some (hmacSha256Base64 "whsec" "\x7b\"shop_domain\":\"shop-a.myshopify.com\"\x7d"))
          "whsec" ⟨[], [("shop-a.myshopify.com", ⟨"tok", "read_orders", "T"⟩)], []⟩).world).response
      = .notInstalled "https://apps.shopify.com/handle" :=
  handleWebhook_shopRedact_deletes "\x7b\"shop_domain\":\"shop-a.myshopify.com\"\x7d"
    (some (hmacSha256Base64 "whsec" "\x7b\"shop_domain\":\"shop-a.myshopify.com\"\x7d"))
    "whsec" [("shop_domain", "shop-a.myshopify.com")] "shop-a.myshopify.com"
    "k1" "T1" "handle" ⟨[], [("shop-a.myshopify.com", ⟨"tok", "read_orders", "T"⟩)], []⟩
    (by decide) (by decide) (by decide) (by decide) (by decide)

/-- A bearer header yields exactly its suffix as the client key. -/
theorem extractApiKey_bearer (k : String) :
    extractApiKey (some ("Bearer " ++ k)) = some k := by
  unfold extractApiKey
  have hd : ("Bearer " ++ k).data = "Bearer ".data ++ k.data := String.data_append _ _
  have hemp : (("Bearer " ++ k) == "") = false := by
    simp only [beq_eq_false_iff_ne, ne_eq]
    intro he
    have := congrArg String.data he
    simp [hd] at this
  have h7 : "Bearer ".data.length = 7 := rfl
  have htake : ("Bearer " ++ k).data.take 7 = "Bearer ".data := by
    rw [hd, ← h7]
    exact List.take_left _ _
  have hdrop : ("Bearer " ++ k).data.drop 7 = k.data := by
    rw [hd, ← h7]
    exact List.drop_left _ _
  simp [hemp, htake, hdrop]

/-- C10. Shop redaction deletes only the MerchantRecord: the credential
store is untouched, and the proxy — which resolves a client key against the
credential store's stored token snapshot alone, reading the MerchantRecord
store zero times — still forwards exactly one upstream call with the
snapshot token and relays the upstream response. -/
theorem shopRedact_preserves_clientCredentials (body : String) (hmacHdr : Option String)
    (secret : String) (kvs : List (String × String)) (shop k e bd : String) (st : Nat)
    (rec : ApiKeyRecord) (upstream : UpstreamCall → Option (Nat × String)) (w : World)
    (hver : verifyWebhookHmac body hmacHdr secret = true)
    (hparse : parseFlatJson body = some kvs)
    (hdom : entriesGet kvs "shop_domain" = some shop)
    (hne : shop ≠ "")
    (hkey : kvGet w.apiKeys ("key:" ++ k) = some rec)
    (he : e ≠ "")
    (hup : upstream ⟨rec.shop, e, "GET", none, rec.accessToken⟩ = some (st, bd)) :
    (handleWebhook "shop/redact" body hmacHdr secret w).world.apiKeys = w.apiKeys ∧
    (handleAPIProxy (some ("Bearer " ++ k)) (some e) none none upstream
        (handleWebhook "shop/redact" body hmacHdr secret w).world).upstreamCalls =
      [⟨rec.shop, e, "GET", none, rec.accessToken⟩] ∧
    (handleAPIProxy (some ("Bearer " ++ k)) (some e) none none upstream
        (handleWebhook "shop/redact" body hmacHdr secret w).world).response =
      .upstream st bd ∧
    (handleAPIProxy (some ("Bearer " ++ k)) (some e) none none upstream
        (handleWebhook "shop/redact" body hmacHdr secret w).world).shopsGets = 0 := by
  have hw2 : handleWebhook "shop/redact" body hmacHdr secret w =
      ⟨.ok (), { w with shops := kvDelete w.shops shop }⟩ := by
    unfold handleWebhook handleShopRedact
    simp [hver, hparse, hdom, hne]
  rw [hw2]
  refine ⟨rfl, ?_⟩
  unfold handleAPIProxy
  rw [extractApiKey_bearer]
  simp only []
  rw [show ({ w with shops := kvDelete w.shops shop } : World).apiKeys = w.apiKeys from rfl,
      hkey]
  simp [falsy, he, hup]

set_option maxRecDepth 40000 in
/-- Witness for C10 at a concrete input: after redacting `a.myshopify.com`,
its previously issued key still proxies one upstream call with the stored
token. -/
theorem shopRedact_preserves_clientCredentials_witness :
    (handleWebhook "shop/redact" "\x7b\"shop_domain\":\"a.myshopify.com\"\x7d"
        (some (hmacSha256Base64 "whsec" "\x7b\"shop_domain\":\"a.myshopify.com\"\x7d"))
        "whsec" ⟨[], [("a.myshopify.com", ⟨"tok", "read_orders", "T"⟩)],
                 [("key:k1", ⟨"a.myshopify.com", "tok", "T0"⟩)]⟩).world.apiKeys =
      [("key:k1", ⟨"a.myshopify.com", "tok", "T0"⟩)] ∧
    (handleAPIProxy (some ("Bearer " ++ "k1")) (some "/orders.json") none none
        (fun _ => some (200, "resp"))
        (handleWebhook "shop/redact" "\x7b\"shop_domain\":\"a.myshopify.com\"\x7d"
          (some (hmacSha256Base64 "whsec" "\x7b\"shop_domain\":\"a.myshopify.com\"\x7d"))
          "whsec" ⟨[], [("a.myshopify.com", ⟨"tok", "read_orders", "T"⟩)],
                   [("key:k1", ⟨"a.myshopify.com", "tok", "T0"⟩)]⟩).world).upstreamCalls =
      [⟨"a.myshopify.com", "/orders.json", "GET", none, "tok"⟩] ∧
    (handleAPIProxy (some ("Bearer " ++ "k1")) (some "/orders.json") none none
        (fun _ => some (200, "resp"))
        (handleWebhook "shop/redact" "\x7b\"shop_domain\":\"a.myshopify.com\"\x7d"
          (some (hmacSha256Base64 "whsec" "\x7b\"shop_domain\":\"a.myshopify.com\"\x7d"))
          "whsec" ⟨[], [("a.myshopify.com", ⟨"tok", "read_orders", "T"⟩)],
                   [("key:k1", ⟨"a.myshopify.com", "tok", "T0"⟩)]⟩).world).response =
      .upstream 200 "resp" ∧
    (handleAPIProxy (some ("Bearer " ++ "k1")) (some "/orders.json") none none
        (fun _ => some (200, "resp"))
        (handleWebhook "shop/redact" "\x7b\"shop_domain\":\"a.myshopify.com\"\x7d"
          (some (hmacSha256Base64 "whsec" "\x7b\"shop_domain\":\"a.myshopify.com\"\x7d"))
          "whsec" ⟨[], [("a.myshopify.com", ⟨"tok", "read_orders", "T"⟩)],
                   [("key:k1", ⟨"a.myshopify.com", "tok", "T0"⟩)]⟩).world).shopsGets = 0 :=
  shopRedact_preserves_clientCredentials "\x7b\"shop_domain\":\"a.myshopify.com\"\x7d"
    (some (hmacSha256Base64 "whsec" "\x7b\"shop_domain\":\"a.myshopify.com\"\x7d"))
    "whsec" [("shop_domain", "a.myshopify.com")] "a.myshopify.com" "k1" "/orders.json"
    "resp" 200 ⟨"a.myshopify.com", "tok", "T0"⟩ (fun _ => some (200, "resp"))
    ⟨[], [("a.myshopify.com", ⟨"tok", "read_orders", "T"⟩)],
     [("key:k1", ⟨"a.myshopify.com", "tok", "T0"⟩)]⟩
    (by decide) (by decide) (by decide) (by decide) (by decide) (by decide) (by decide)

end Gateway

namespace Gateway

/-! ## State consumption in the OAuth callback (claim C1) -/

set_option maxRecDepth 40000 in
/-- C1 counterexample. The state entry is *not* deleted regardless of
outcome: a callback whose supplied domain mismatches the stored one throws
after the lookup but leaves the entry in place, and a second callback
presenting the very same state token (now with the stored domain and a
valid signature) succeeds. -/
theorem handleOAuthCallback_stateNotAlwaysDeleted_cex :
    handleOAuthCallback
        [("code", "c1"), ("hmac", "x"), ("shop", "b.myshopify.com"), ("state", "st")]
        "shh" (fun _ _ => some ⟨"tok", "read_orders"⟩) "T" "handle"
        ⟨[("st", "a.myshopify.com")], [], []⟩ =
      ⟨.error (.authenticationError EM_INVALID_STATE 403),
       ⟨[("st", "a.myshopify.com")], [], []⟩, 1, [], []⟩ ∧
    (handleOAuthCallback
        [("code", "c1"),
         ("hmac", hmacSha256Hex "shh" "code=c1&shop=a.myshopify.com&state=st"),
         ("shop", "a.myshopify.com"), ("state", "st")]
        "shh" (fun _ _ => some ⟨"tok", "read_orders"⟩) "T" "handle"
        ⟨[("st", "a.myshopify.com")], [], []⟩).outcome =
      .ok "https://a.myshopify.com/admin/apps/handle" := by
  constructor
  · decide
  · decide

/-- C1 as amended. When the four parameters are present and the state
lookup *matches* the supplied domain, the entry is deleted before the
callback finishes regardless of the remaining outcome (signature failure,
exchange failure, or success), and any second callback presenting the same
state token against the resulting stores fails authentication. -/
theorem handleOAuthCallback_matchedState_consumed (params : Params) (secret : String)
    (exchangeToken : String → String → Option TokenData) (now appHandle : String)
    (w : World)
    (hcode : falsy (entriesGet params "code") = false)
    (hshop : falsy (entriesGet params "shop") = false)
    (hstate : falsy (entriesGet params "state") = false)
    (hhmac : falsy (entriesGet params "hmac") = false)
    (hmatch : kvGet w.authStates ((entriesGet params "state").getD "") =
        some ((entriesGet params "shop").getD "")) :
    (handleOAuthCallback params secret exchangeToken now appHandle w).world.authStates =
      kvDelete w.authStates ((entriesGet params "state").getD "") ∧
    kvGet (handleOAuthCallback params secret exchangeToken now appHandle w).world.authStates
      ((entriesGet params "state").getD "") = none ∧
    (∀ params2 secret2 exch2 now2 appHandle2,
      falsy (entriesGet params2 "code") = false →
      falsy (entriesGet params2 "shop") = false →
      falsy (entriesGet params2 "hmac") = false →
      entriesGet params2 "state" = entriesGet params "state" →
      (handleOAuthCallback params2 secret2 exch2 now2 appHandle2
          (handleOAuthCallback params secret exchangeToken now appHandle w).world).outcome =
        .error (.authenticationError EM_INVALID_STATE 403)) := by
  have hauth : (handleOAuthCallback params secret exchangeToken now appHandle w).world.authStates =
      kvDelete w.authStates ((entriesGet params "state").getD "") := by
    unfold handleOAuthCallback
    simp only [hcode, hshop, hstate, hhmac, Bool.or_self, Bool.false_or,
               Bool.false_eq_true, if_false]
    by_cases hv : verifyShopifyHmac params secret
    · cases hex : exchangeToken ((entriesGet params "shop").getD "")
          ((entriesGet params "code").getD "") <;>
        simp [hmatch, hv, hex]
    · simp [hmatch, hv]
  refine ⟨hauth, by rw [hauth]; exact kvGet_delete_self _ _, ?_⟩
  intro params2 secret2 exch2 now2 appHandle2 hcode2 hshop2 hhmac2 hst2
  have hstate2 : falsy (entriesGet params2 "state") = false := by
    rw [hst2]; exact hstate
  generalize hG : (handleOAuthCallback params secret exchangeToken now appHandle w).world
      = wmid at hauth ⊢
  unfold handleOAuthCallback
  simp only [hcode2, hshop2, hstate2, hhmac2, Bool.or_self, Bool.false_or,
             Bool.false_eq_true, if_false]
  rw [hst2, hauth, kvGet_delete_self]
  simp

/-- Witness for the amended C1 at a concrete input: a matched state entry
is consumed even though the signature check then fails, and replaying the
same state token fails authentication. -/
theorem handleOAuthCallback_matchedState_consumed_witness :
    kvGet (handleOAuthCallback
        [("code", "c1"), ("hmac", "x"), ("shop", "a.myshopify.com"), ("state", "st")]
        "shh" (fun _ _ => some ⟨"tok", "read_orders"⟩) "T" "handle"
        ⟨[("st", "a.myshopify.com")], [], []⟩).world.authStates "st" = none ∧
    (handleOAuthCallback
        [("code", "c1"), ("hmac", "x"), ("shop", "a.myshopify.com"), ("state", "st")]
        "shh" (fun _ _ => some ⟨"tok", "read_orders"⟩) "T" "handle"
        (handleOAuthCallback
          [("code", "c1"), ("hmac", "x"), ("shop", "a.myshopify.com"), ("state", "st")]
          "shh" (fun _ _ => some ⟨"tok", "read_orders"⟩) "T" "handle"
          ⟨[("st", "a.myshopify.com")], [], []⟩).world).outcome =
      .error (.authenticationError EM_INVALID_STATE 403) :=
  have h := handleOAuthCallback_matchedState_consumed
    [("code", "c1"), ("hmac", "x"), ("shop", "a.myshopify.com"), ("state", "st")]
    "shh" (fun _ _ => some ⟨"tok", "read_orders"⟩) "T" "handle"
    ⟨[("st", "a.myshopify.com")], [], []⟩
    (by decide) (by decide) (by decide) (by decide) (by decide)
  ⟨h.2.1, h.2.2
    [("code", "c1"), ("hmac", "x"), ("shop", "a.myshopify.com"), ("state", "st")]
    "shh" (fun _ _ => some ⟨"tok", "read_orders"⟩) "T" "handle"
    (by decide) (by decide) (by decide) (by decide)⟩

end Gateway

namespace Gateway

/-! ## Domain validation across operations (claim C3) -/

/-- C3 counterexample. The OAuth callback performs no domain-format
validation: with `shop=evil.com` (which fails the domain rule) and all four
parameters present, the handler reads the state store (one lookup) and
rejects with `AuthenticationError` (invalid state) — not with
`ValidationError`, and not before store access. -/
theorem handleOAuthCallback_noDomainValidation_cex :
    isValidShopDomain (some "evil.com") = false ∧
    handleOAuthCallback
        [("code", "c1"), ("hmac", "x"), ("shop", "evil.com"), ("state", "st")]
        "shh" (fun _ _ => some ⟨"tok", "read_orders"⟩) "T" "handle" ⟨[], [], []⟩ =
      ⟨.error (.authenticationError EM_INVALID_STATE 403), ⟨[], [], []⟩, 1, [], []⟩ := by
  constructor
  · decide
  · decide

/-- C3 as amended. Root entry and auth initiation reject an invalid merchant
identifier with `ValidationError` before any store access; credential
issuance rejects it with its 400 invalid-shop response before any store
access; the OAuth callback alone does not validate the format — it reaches
the state-store lookup and, provided every stored AuthState maps to a valid
domain (the invariant initiation maintains), rejects the invalid domain as
an invalid state (`AuthenticationError`) after one lookup. -/
theorem domainValidation_byOperation (shop : Option String)
    (hinv : isValidShopDomain shop = false) :
    (∀ embedded host w, falsy shop = false →
       handleRootPath shop embedded host w =
         ⟨.error (.validationError EM_INVALID_SHOP 400), 0⟩) ∧
    (∀ freshState clientId scopes redirectUri w,
       handleOAuth shop freshState clientId scopes redirectUri w =
         ⟨.error (.validationError EM_INVALID_SHOP 400), w, 0⟩) ∧
    (∀ freshKey now appHandle w,
       handleExtensionAuth shop freshKey now appHandle w = ⟨.invalidShop, w, 0⟩) ∧
    (∀ params secret exch now appHandle w,
       entriesGet params "shop" = shop →
       falsy (entriesGet params "code") = false →
       falsy shop = false →
       falsy (entriesGet params "state") = false →
       falsy (entriesGet params "hmac") = false →
       (∀ st sv, (st, sv) ∈ w.authStates → isValidShopDomain (some sv) = true) →
       handleOAuthCallback params secret exch now appHandle w =
         ⟨.error (.authenticationError EM_INVALID_STATE 403), w, 1, [], []⟩) := by
  refine ⟨?_, ?_, ?_, ?_⟩
  · intro embedded host w hpres
    unfold handleRootPath
    simp [hpres, hinv]
  · intro freshState clientId scopes redirectUri w
    unfold handleOAuth
    simp [hinv]
  · intro freshKey now appHandle w
    unfold handleExtensionAuth
    simp [hinv]
  · intro params secret exch now appHandle w hpe hcode hshop hstate hhmac hstore
    obtain ⟨s, rfl⟩ : ∃ s, shop = some s := by
      cases shop with
      | none => simp [falsy] at hshop
      | some s => exact ⟨s, rfl⟩
    unfold handleOAuthCallback
    simp only [hpe, hcode, hshop, hstate, hhmac, Bool.or_self, Bool.false_or,
               Bool.false_eq_true, if_false]
    rcases hsv : kvGet w.authStates ((entriesGet params "state").getD "") with _ | sv
    · simp
    · have hsvvalid := hstore _ _ (kvGet_mem _ _ _ hsv)
      have hne : sv ≠ (some s).getD "" := by
        intro he
        rw [he] at hsvvalid
        simp only [Option.getD_some] at hsvvalid
        rw [hsvvalid] at hinv
        cases hinv
      have hne2 : sv ≠ s := by simpa using hne
      simp [hne2]

/-- Witness for the amended C3 at `evil.com` across all four operations. -/
theorem domainValidation_byOperation_witness :
    handleRootPath (some "evil.com") none none ⟨[], [], []⟩ =
      ⟨.error (.validationError EM_INVALID_SHOP 400), 0⟩ ∧
    handleOAuth (some "evil.com") "st" "cid" "scopes" "ruri" ⟨[], [], []⟩ =
      ⟨.error (.validationError EM_INVALID_SHOP 400), ⟨[], [], []⟩, 0⟩ ∧
    handleExtensionAuth (some "evil.com") "k" "T" "hdl" ⟨[], [], []⟩ =
      ⟨.invalidShop, ⟨[], [], []⟩, 0⟩ ∧
    handleOAuthCallback [("code", "c"), ("hmac", "x"), ("shop", "evil.com"), ("state", "st")]
        "s" (fun _ _ => none) "T" "hdl" ⟨[], [], []⟩ =
      ⟨.error (.authenticationError EM_INVALID_STATE 403), ⟨[], [], []⟩, 1, [], []⟩ :=
  have h := domainValidation_byOperation (some "evil.com") (by decide)
  ⟨h.1 none none ⟨[], [], []⟩ (by decide),
   h.2.1 "st" "cid" "scopes" "ruri" ⟨[], [], []⟩,
   h.2.2.1 "k" "T" "hdl" ⟨[], [], []⟩,
   h.2.2.2 [("code", "c"), ("hmac", "x"), ("shop", "evil.com"), ("state", "st")]
     "s" (fun _ _ => none) "T" "hdl" ⟨[], [], []⟩ (by decide) (by decide) (by decide)
     (by decide) (by decide) (fun _ _ hm => absurd hm (List.not_mem_nil _))⟩

end Gateway

namespace Gateway

/-! ## Authorization signatures: locale sort vs byte-wise sort (claim C2) -/

/-- ASCII lowercase letter or digit. -/
def isLowerAlnumChar (c : Char) : Bool :=
  (97 ≤ c.toNat && c.toNat ≤ 122) || (48 ≤ c.toNat && c.toNat ≤ 57)

/-- `cmpNat` answers `.eq` exactly on equal arguments. -/
theorem cmpNat_eq_iff (x y : Nat) : cmpNat x y = .eq ↔ x = y := by
  constructor
  · intro h
    unfold cmpNat at h
    split_ifs at h with h1 h2
    omega
  · intro h
    subst h
    unfold cmpNat
    simp

/-- Lexicographic comparison answers `.eq` exactly on equal lists. -/
theorem cmpNatList_eq_iff : ∀ (xs ys : List Nat), cmpNatList xs ys = .eq ↔ xs = ys
  | [], [] => by simp [cmpNatList]
  | [], _ :: _ => by simp [cmpNatList]
  | _ :: _, [] => by simp [cmpNatList]
  | x :: xs, y :: ys => by
    simp only [cmpNatList]
    cases h : cmpNat x y with
    | lt =>
      constructor
      · intro hh
        simp at hh
      · intro hh
        obtain ⟨rfl, -⟩ : x = y ∧ xs = ys := by simpa using hh
        rw [(cmpNat_eq_iff x x).2 rfl] at h
        simp at h
    | gt =>
      constructor
      · intro hh
        simp at hh
      · intro hh
        obtain ⟨rfl, -⟩ : x = y ∧ xs = ys := by simpa using hh
        rw [(cmpNat_eq_iff x x).2 rfl] at h
        simp at h
    | eq =>
      obtain rfl : x = y := (cmpNat_eq_iff x y).1 h
      simp [cmpNatList_eq_iff xs ys]

/-- A list compares `.eq` with itself. -/
theorem cmpNatList_self (l : List Nat) : cmpNatList l l = .eq :=
  (cmpNatList_eq_iff l l).2 rfl

/-- On lowercase alphanumerics the primary collation weight is ordered
exactly like the scalar value. -/
theorem localePrimary_cmp (c d : Char) (hc : isLowerAlnumChar c = true)
    (hd : isLowerAlnumChar d = true) :
    cmpNat (localePrimary c) (localePrimary d) = cmpNat c.toNat d.toNat := by
  simp only [isLowerAlnumChar, Bool.or_eq_true, Bool.and_eq_true,
             decide_eq_true_eq] at hc hd
  unfold localePrimary cmpNat
  rcases hc with ⟨h1, h2⟩ | ⟨h1, h2⟩ <;> rcases hd with ⟨g1, g2⟩ | ⟨g1, g2⟩ <;>
    split_ifs <;> first | rfl | omega

/-- Lowercase alphanumerics carry tertiary weight zero. -/
theorem localeTertiary_lower (c : Char) (hc : isLowerAlnumChar c = true) :
    localeTertiary c = 0 := by
  simp only [isLowerAlnumChar, Bool.or_eq_true, Bool.and_eq_true,
             decide_eq_true_eq] at hc
  unfold localeTertiary
  rcases hc with ⟨h1, h2⟩ | ⟨h1, h2⟩ <;> split_ifs <;> first | rfl | omega

/-- Over lowercase-alphanumeric strings the primary collation pass agrees
with the byte-wise comparison. -/
theorem cmpPrimary_eq_cmpByte : ∀ (xs ys : List Char),
    (∀ c ∈ xs, isLowerAlnumChar c = true) → (∀ c ∈ ys, isLowerAlnumChar c = true) →
    cmpNatList (xs.map localePrimary) (ys.map localePrimary) =
      cmpNatList (xs.map Char.toNat) (ys.map Char.toNat)
  | [], [], _, _ => rfl
  | [], _ :: _, _, _ => rfl
  | _ :: _, [], _, _ => rfl
  | x :: xs, y :: ys, hx, hy => by
    simp only [List.map_cons, cmpNatList]
    rw [localePrimary_cmp x y (hx x (by simp)) (hy y (by simp))]
    cases h : cmpNat x.toNat y.toNat with
    | eq => exact cmpPrimary_eq_cmpByte xs ys (fun c hc => hx c (by simp [hc]))
              (fun c hc => hy c (by simp [hc]))
    | lt => rfl
    | gt => rfl

/-- Over lowercase-alphanumeric strings the locale comparator's `≤ 0` test
coincides with byte-wise lexicographic `≤`. -/
theorem localeLe_eq_byteLe (a b : String)
    (ha : ∀ c ∈ a.data, isLowerAlnumChar c = true)
    (hb : ∀ c ∈ b.data, isLowerAlnumChar c = true) :
    (decide (localeCompare a b ≤ 0)) = byteLexLe a b := by
  unfold localeCompare byteLexLe
  rw [cmpPrimary_eq_cmpByte a.data b.data ha hb]
  cases ho : cmpNatList (a.data.map Char.toNat) (b.data.map Char.toNat) with
  | lt => simp
  | gt => simp
  | eq =>
    have hdata : a.data = b.data := by
      have hm := (cmpNatList_eq_iff _ _).1 ho
      exact List.map_injective_iff.mpr (fun c d hcd => charToNat_inj hcd) hm
    rw [hdata, cmpNatList_self]
    simp

/-- Membership in a stable insertion. -/
theorem mem_stableInsert (le : α → α → Bool) (x : α) :
    ∀ (l : List α) (y : α), y ∈ stableInsert le x l ↔ y = x ∨ y ∈ l
  | [], y => by simp [stableInsert]
  | z :: l, y => by
    unfold stableInsert
    by_cases h : le x z
    · simp [h]
    · simp only [h, Bool.false_eq_true, if_false, List.mem_cons, mem_stableInsert le x l y]
      tauto

/-- Membership is preserved by the stable sort. -/
theorem mem_stableSort (le : α → α → Bool) :
    ∀ (l : List α) (y : α), y ∈ stableSort le l ↔ y ∈ l
  | [], _ => Iff.rfl
  | x :: l, y => by
    unfold stableSort
    rw [mem_stableInsert]
    simp [mem_stableSort le l y]

/-- Insertions under comparators that agree on the inserted element and the
list coincide. -/
theorem stableInsert_congr (le1 le2 : α → α → Bool) (x : α) :
    ∀ (l : List α), (∀ y ∈ l, le1 x y = le2 x y) →
      stableInsert le1 x l = stableInsert le2 x l
  | [], _ => rfl
  | z :: l, h => by
    unfold stableInsert
    rw [h z (by simp)]
    by_cases hz : le2 x z
    · simp [hz]
    · simp only [hz, Bool.false_eq_true, if_false, List.cons.injEq, true_and]
      exact stableInsert_congr le1 le2 x l (fun y hy => h y (by simp [hy]))

/-- Sorts under comparators that agree on the list's elements coincide. -/
theorem stableSort_congr (le1 le2 : α → α → Bool) :
    ∀ (l : List α), (∀ x ∈ l, ∀ y ∈ l, le1 x y = le2 x y) →
      stableSort le1 l = stableSort le2 l
  | [], _ => rfl
  | x :: l, h => by
    unfold stableSort
    rw [stableSort_congr le1 le2 l (fun a ha b hb => h a (by simp [ha]) b (by simp [hb]))]
    exact stableInsert_congr le1 le2 x _
      (fun y hy => h x (by simp) y (by simp [(mem_stableSort le2 l y).1 hy]))

/-- A SHA-256 digest has 32 bytes. -/
theorem sha256_length (msg : List Nat) : (sha256 msg).length = 32 := by
  simp [sha256, wordBytes]

/-- Hex rendering doubles the byte count. -/
theorem toHex_length (bs : List Nat) : (toHex bs).length = 2 * bs.length := by
  have hflat : ∀ (l : List Nat),
      ((l.map (fun b => [Nat.digitChar (b / 16), Nat.digitChar (b % 16)])).flatten).length
        = 2 * l.length := by
    intro l
    induction l with
    | nil => rfl
    | cons b l ih =>
      simp only [List.map_cons, List.flatten_cons, List.length_append, ih,
                 List.length_cons, List.length_nil]
      omega
  simpa [toHex] using hflat bs

/-- A hex-rendered HMAC-SHA256 digest has 64 characters. -/
theorem hmacSha256Hex_length (secret msg : String) :
    (hmacSha256Hex secret msg).length = 64 := by
  unfold hmacSha256Hex
  rw [toHex_length]
  have h32 : (hmacSha256 (utf8Bytes secret) (utf8Bytes msg)).length = 32 := by
    unfold hmacSha256
    exact sha256_length _
  rw [h32]

/-- The empty string never equals a hex digest under the constant-time
comparison. -/
theorem timingSafeEqual_empty_hex (secret msg : String) :
    timingSafeEqual "" (hmacSha256Hex secret msg) = false := by
  unfold timingSafeEqual
  simp [hmacSha256Hex_length]

set_option maxRecDepth 80000 in
/-- C2 counterexample. The verifier sorts keys with `localeCompare`, not
byte-wise: with keys `B` and `a` (where the two orders differ — `a` before
`B` for the locale, `B` before `a` byte-wise) the code accepts the digest
computed over `a=1&B=2` while the byte-wise specification, which canonises
to `B=2&a=1`, rejects that same request. -/
theorem verifyShopifyHmac_localeSort_cex :
    verifyShopifyHmac
        [("B", "2"), ("a", "1"), ("hmac", hmacSha256Hex "s" "a=1&B=2")] "s" = true ∧
    specVerifyAuthorizationSignature
        [("B", "2"), ("a", "1"), ("hmac", hmacSha256Hex "s" "a=1&B=2")] "s" = false := by
  constructor
  · decide
  · decide

/-- C2 as amended. The verifier removes the signature parameters, sorts the
remaining parameters by key under the default-locale `localeCompare`
collation (not byte-wise order), joins them as `key=value` pairs with `&`,
computes HMAC-SHA256 over the UTF-8 encoding, renders lowercase hex, and
accepts exactly on constant-time digest equality; whenever every parameter
key consists of lowercase ASCII alphanumerics — as the real callback keys
`code`, `hmac`, `shop`, `state`, `host`, `timestamp` do — the locale order
coincides with byte-wise order and the verifier agrees with the byte-wise
specification on every input. -/
theorem verifyShopifyHmac_eq_spec_onLowerKeys (params : Params) (secret : String)
    (hkeys : ∀ p ∈ params, ∀ c ∈ p.1.data, isLowerAlnumChar c = true) :
    verifyShopifyHmac params secret = specVerifyAuthorizationSignature params secret := by
  unfold verifyShopifyHmac specVerifyAuthorizationSignature
  rcases hp : paramsGet params "hmac" with _ | h
  · rfl
  · have hsort : stableSort (fun p q : String × String => decide (localeCompare p.1 q.1 ≤ 0))
        (params.filter (fun p => p.1 != "hmac" && p.1 != "signature")) =
      stableSort (fun p q : String × String => byteLexLe p.1 q.1)
        (params.filter (fun p => p.1 != "hmac" && p.1 != "signature")) := by
      apply stableSort_congr
      intro x hx y hy
      exact localeLe_eq_byteLe x.1 y.1
        (hkeys x (List.mem_of_mem_filter hx))
        (hkeys y (List.mem_of_mem_filter hy))
    by_cases he : h = ""
    · subst he
      simp [timingSafeEqual_empty_hex]
    · have hbe : (h == "") = false := by simpa using he
      simp only [hbe, Bool.false_eq_true, if_false]
      rw [hsort]

/-- Witness for the amended C2 at a concrete input with lowercase keys. -/
theorem verifyShopifyHmac_eq_spec_onLowerKeys_witness :
    verifyShopifyHmac
        [("code", "c1"), ("hmac", "x"), ("shop", "a.myshopify.com"), ("state", "st")] "s" =
      specVerifyAuthorizationSignature
        [("code", "c1"), ("hmac", "x"), ("shop", "a.myshopify.com"), ("state", "st")] "s" :=
  verifyShopifyHmac_eq_spec_onLowerKeys
    [("code", "c1"), ("hmac", "x"), ("shop", "a.myshopify.com"), ("state", "st")] "s"
    (by decide)

end Gateway
